import Mathlib

/-!
Verification of the fungible-token ledger and marketplace-escrow core of the
near-examples/ft-tutorial repository.

The contract state is embedded shallowly: the on-chain `LookupMap` collections
become association lists over `String` keys, `u128` balances become `Nat`
values bounded by `U128MAX` with explicit checked/saturating arithmetic, and
each entry point becomes a pure function returning `Option` — `none` models a
panic, which under the host's transactional semantics rolls back the whole
state transition (no partial writes persist).  Asynchronous promise results
are passed in explicitly as values of an outcome type, and cross-contract
calls issued by a transition are recorded in an outbound-call log carried in
the state.
-/

namespace FtTutorial

/-- Maximum value of a 128-bit unsigned integer (`u128::MAX`). -/
def U128MAX : Nat := 2 ^ 128 - 1

/-! ## Association-list maps

`near_sdk::collections::LookupMap` / `UnorderedMap` keyed by account IDs or
sale IDs.  Keys are unique in any map the SDK produces; lemmas that need
uniqueness take a `Nodup` hypothesis on the key list. -/

/-- Lookup in an association list (`LookupMap::get`). -/
def alistGet {α : Type} : List (String × α) → String → Option α
  | [], _ => none
  | (k', v) :: t, k => if k' = k then some v else alistGet t k

/-- Insert-or-replace in an association list (`LookupMap::insert`). -/
def alistSet {α : Type} : List (String × α) → String → α → List (String × α)
  | [], k, v => [(k, v)]
  | (k', v') :: t, k, v => if k' = k then (k, v) :: t else (k', v') :: alistSet t k v

/-- Remove the entry for a key (`LookupMap::remove`). -/
def alistRemove {α : Type} : List (String × α) → String → List (String × α)
  | [], _ => []
  | (k', v') :: t, k => if k' = k then t else (k', v') :: alistRemove t k

/-- Sum of all balances stored in the map. -/
def sumBal (l : List (String × Nat)) : Nat := (l.map Prod.snd).sum

/-! ## Fungible-token contract (src/ft-contract)

State of the `Contract` struct as far as the ledger is concerned: the
`accounts : LookupMap<AccountId, Balance>` map and the `total_supply`
scalar.  An event log records every `FtTransfer { .. }.emit()` the code
performs; the ft contract under verification emits no other event kind. -/

/-- An emitted NEP-297 event.  `ftTransfer` corresponds to
`FtTransfer { old_owner_id, new_owner_id, amount, memo }.emit()`. -/
inductive FtEvent : Type
  | ftTransfer (old_owner_id new_owner_id : String) (amount : Nat) (memo : Option String)
  deriving DecidableEq, Repr

/-- Ledger-relevant state of the ft contract. -/
structure FTContract : Type where
  accounts : List (String × Nat)
  total_supply : Nat
  log : List FtEvent
  deriving DecidableEq, Repr

/-- Outcome of the `ft_on_transfer` promise as observed by
`env::promise_result(0)` in `ft_resolve_transfer`.  A successful result
carries the outcome of parsing the returned bytes as a `U128`
(`serde_json::from_slice::<U128>`): `some u` when parsing succeeds, `none`
when the bytes are not a valid unsigned-integer literal. -/
inductive PromiseRes : Type
  | notReady
  | failed
  | successful (parsed : Option Nat)
  deriving DecidableEq, Repr

/-- The unused-amount computation at the head of `ft_resolve_transfer`
(src/ft-contract/src/ft_core.rs lines 183–197): a successful promise whose
value parses as `u` yields `min amount u` ("to prevent malicious
contracts"); an unparsable value or a failed promise yields the full
original `amount`. -/
def resolveUnusedAmount (amount : Nat) (pr : PromiseRes) : Nat :=
  match pr with
  | PromiseRes.successful (some u) => min amount u
  | _ => amount

namespace FTContract

/-- `internal_unwrap_balance_of` (src/ft-contract/src/internal.rs): the
account's balance, or a panic (`none`) when the account is not registered. -/
def internal_unwrap_balance_of (s : FTContract) (account_id : String) : Option Nat :=
  alistGet s.accounts account_id

/-- `internal_deposit` (src/ft-contract/src/internal.rs): checked add to the
account's balance, then checked add to `total_supply`; panics on a missing
account ("not registered"), on balance overflow and on supply overflow. -/
def internal_deposit (s : FTContract) (account_id : String) (amount : Nat) :
    Option FTContract :=
  match s.internal_unwrap_balance_of account_id with
  | none => none
  | some balance =>
    if balance + amount ≤ U128MAX then
      if s.total_supply + amount ≤ U128MAX then
        some { s with
          accounts := alistSet s.accounts account_id (balance + amount),
          total_supply := s.total_supply + amount }
      else none
    else none

/-- `internal_withdraw` (src/ft-contract/src/internal.rs): checked subtract
from the account's balance, then checked subtract from `total_supply`;
panics on a missing account and on either underflow. -/
def internal_withdraw (s : FTContract) (account_id : String) (amount : Nat) :
    Option FTContract :=
  match s.internal_unwrap_balance_of account_id with
  | none => none
  | some balance =>
    if amount ≤ balance then
      if amount ≤ s.total_supply then
        some { s with
          accounts := alistSet s.accounts account_id (balance - amount),
          total_supply := s.total_supply - amount }
      else none
    else none

/-- `internal_transfer` (src/ft-contract/src/internal.rs): requires
`sender_id != receiver_id` and `amount > 0`, performs `internal_withdraw`
then `internal_deposit`, and emits an `FtTransfer` event. -/
def internal_transfer (s : FTContract) (sender_id receiver_id : String)
    (amount : Nat) (memo : Option String) : Option FTContract :=
  if sender_id = receiver_id then none
  else if amount = 0 then none
  else
    match s.internal_withdraw sender_id amount with
    | none => none
    | some s1 =>
      match s1.internal_deposit receiver_id amount with
      | none => none
      | some s2 =>
        some { s2 with
          log := FtEvent.ftTransfer sender_id receiver_id amount memo :: s2.log }

/-- `internal_register_account` (src/ft-contract/src/internal.rs): inserts a
zero balance; panics when the account is already registered
(`insert` returned `Some`). -/
def internal_register_account (s : FTContract) (account_id : String) :
    Option FTContract :=
  match alistGet s.accounts account_id with
  | some _ => none
  | none => some { s with accounts := alistSet s.accounts account_id 0 }

/-- `internal_storage_unregister` (src/ft-contract/src/internal.rs), invoked
with `env::predecessor_account_id() = account_id`.  Returns
`some (some (account, balance), s')` when the account was removed,
`some (none, s)` when the account was not registered (logs and returns
`None`), and `none` for the panic on a positive balance without `force`.
The `Promise::new(..).transfer(..)` of the native (NEAR) storage deposit back
to the caller is outside the token ledger and is not part of the state.
Note: the code emits no event on this path. -/
def internal_storage_unregister (s : FTContract) (account_id : String)
    (force : Option Bool) : Option (Option (String × Nat) × FTContract) :=
  let force := force.getD false
  match alistGet s.accounts account_id with
  | some balance =>
    if balance = 0 ∨ force = true then
      some (some (account_id, balance),
        { s with
          accounts := alistRemove s.accounts account_id,
          total_supply := s.total_supply - balance })
    else none
  | none => some (none, s)

/-- `storage_unregister` (src/ft-contract/src/storage.rs): `assert_one_yocto`
then `internal_storage_unregister(force).is_some()`.  `deposit` is the
attached yoctoNEAR amount. -/
def storage_unregister (s : FTContract) (account_id : String) (deposit : Nat)
    (force : Option Bool) : Option (Bool × FTContract) :=
  if deposit = 1 then
    match s.internal_storage_unregister account_id force with
    | none => none
    | some (r, s1) => some (r.isSome, s1)
  else none

/-- `ft_resolve_transfer` (src/ft-contract/src/ft_core.rs): resolves the
`ft_transfer_call` saga.  `pr` is the observed result of the receiver's
`ft_on_transfer` promise.  Returns the used amount alongside the new state;
`none` models `env::abort`/panic (promise not ready, missing sender account
at `self.accounts.get(sender_id).unwrap()`, or an arithmetic check failing).
Mirrors the source's order of operations: the receiver's balance is written
back before the sender's balance is read. -/
def ft_resolve_transfer (s : FTContract) (sender_id receiver_id : String)
    (amount : Nat) (pr : PromiseRes) : Option (FTContract × Nat) :=
  match pr with
  | PromiseRes.notReady => none
  | _ =>
    let unused_amount : Nat := resolveUnusedAmount amount pr
    if unused_amount > 0 then
      let receiver_balance := (alistGet s.accounts receiver_id).getD 0
      if receiver_balance > 0 then
        let refund_amount := min receiver_balance unused_amount
        if refund_amount ≤ receiver_balance then
          let accounts1 := alistSet s.accounts receiver_id (receiver_balance - refund_amount)
          match alistGet accounts1 sender_id with
          | none => none
          | some sender_balance =>
            if sender_balance + refund_amount ≤ U128MAX then
              let accounts2 := alistSet accounts1 sender_id (sender_balance + refund_amount)
              if refund_amount ≤ amount then
                some
                  ({ s with
                      accounts := accounts2,
                      log := FtEvent.ftTransfer receiver_id sender_id refund_amount
                          (some "refund") :: s.log },
                    amount - refund_amount)
              else none
            else none
        else none
      else some (s, amount)
    else some (s, amount)

/-- The `near_bindgen`-generated entry point for `ft_resolve_transfer`.  The
method is a plain `pub fn` in a `#[near_bindgen] impl Contract` block and
carries no `#[private]` attribute, so the generated wrapper performs no
check on `env::predecessor_account_id()`: the predecessor is ignored. -/
def ft_resolve_transfer_entry (_predecessor : String) (s : FTContract)
    (sender_id receiver_id : String) (amount : Nat) (pr : PromiseRes) :
    Option (FTContract × Nat) :=
  s.ft_resolve_transfer sender_id receiver_id amount pr

/-- The ledger invariant: total supply equals the sum of all balances. -/
def supplyInv (s : FTContract) : Prop :=
  s.total_supply = sumBal s.accounts

instance (s : FTContract) : Decidable s.supplyInv := by
  unfold supplyInv; infer_instance

end FTContract

/-! ## Marketplace contract (src/market-contract)

State: the configured ft contract id (`ft_id`), the contract's own account id
(`own_id`, i.e. `env::current_account_id()`, against which the
`#[private]` attribute checks the predecessor), the buyers' escrow balances
(`ft_deposits : LookupMap<AccountId, NearToken>`), the sale map keyed by
`"{nft_contract_id}{DELIMETER}{token_id}"`, and logs of the outbound
`ft_transfer` and `nft_transfer` cross-contract calls issued by a
transition.  `NearToken` amounts are yoctoNEAR `u128` values, so `Nat`
bounded by `U128MAX`; `saturating_add`/`saturating_sub` are modelled
explicitly. -/

/-- Outcome of a promise whose returned value is never inspected
(`nft_transfer` in `resolve_purchase`, `ft_transfer` in `resolve_refund`):
only success versus failure matters. -/
inductive PromiseOutcome : Type
  | ok
  | failed
  deriving DecidableEq, Repr

/-- A `Sale` record (src/market-contract/src/sale.rs). -/
structure Sale : Type where
  owner_id : String
  approval_id : Nat
  nft_contract_id : String
  token_id : String
  sale_conditions : Nat
  deriving DecidableEq, Repr

/-- An outbound `ft_transfer` cross-contract call issued to the ft contract:
receiver, amount, memo. -/
structure FtTransferCall : Type where
  receiver_id : String
  amount : Nat
  memo : Option String
  deriving DecidableEq, Repr

/-- An outbound `nft_transfer` cross-contract call issued to the nft
contract: receiver (buyer), token id, approval id. -/
structure NftTransferCall : Type where
  receiver_id : String
  token_id : String
  approval_id : Nat
  deriving DecidableEq, Repr

/-- Marketplace contract state. -/
structure Market : Type where
  ft_id : String
  own_id : String
  ft_deposits : List (String × Nat)
  sales : List (String × Sale)
  ft_calls : List FtTransferCall
  nft_calls : List NftTransferCall
  deriving DecidableEq, Repr

/-- `ZERO_TOKEN`: `NearToken::from_yoctonear(0)`. -/
def ZERO_TOKEN : Nat := 0

/-- Modelled from the spec: the reserved delimiter joining the remote-asset
contract id and the asset id in a sale key ("a reserved delimiter character
not permitted inside either component").  The constant `DELIMETER` lives in
the market contract's lib.rs, which is not among the provided sources. -/
def DELIMETER : String := "."

/-- `u128::saturating_add`. -/
def satAdd (a b : Nat) : Nat := min (a + b) U128MAX

/-- `u128::saturating_sub` (on `Nat`, truncated subtraction is exactly
saturating subtraction). -/
def satSub (a b : Nat) : Nat := a - b

namespace Market

/-- `ft_on_transfer` (src/market-contract/src/ft_balances.rs): the deposit
hook invoked by the ft contract's `ft_transfer_call`.  `predecessor` is
`env::predecessor_account_id()` (must equal the configured `ft_id`),
`signer` is `env::signer_account_id()` (must differ from the predecessor and
equal the claimed `sender_id`).  Credits the signer's escrow balance with a
saturating add and returns `ZERO_TOKEN` (nothing refused). -/
def ft_on_transfer (s : Market) (predecessor signer sender_id : String)
    (amount : Nat) : Option (Market × Nat) :=
  if predecessor = s.ft_id then
    if predecessor = signer then none
    else if sender_id = signer then
      let cur_bal := (alistGet s.ft_deposits signer).getD ZERO_TOKEN
      some ({ s with ft_deposits := alistSet s.ft_deposits signer (satAdd cur_bal amount) },
        ZERO_TOKEN)
    else none
  else none

/-- `ft_withdraw` (src/market-contract/src/ft_balances.rs): requires exactly
one yoctoNEAR attached and an escrow balance covering `amount`; debits the
caller's escrow balance with a saturating subtract and issues an outbound
`ft_transfer` of `amount` to the caller (the chained `resolve_refund`
callback is a separate later transition). -/
def ft_withdraw (s : Market) (caller : String) (deposit amount : Nat) :
    Option Market :=
  if deposit = 1 then
    let cur_bal := (alistGet s.ft_deposits caller).getD ZERO_TOKEN
    if amount ≤ cur_bal then
      some { s with
        ft_deposits := alistSet s.ft_deposits caller (satSub cur_bal amount),
        ft_calls := FtTransferCall.mk caller amount
          (some "Withdrawing from Marketplace") :: s.ft_calls }
    else none
  else none

/-- `resolve_refund` (src/market-contract/src/ft_balances.rs): `#[private]`
callback after `ft_withdraw`'s outbound transfer.  If the transfer failed,
re-credits the caller's escrow balance (saturating add) with the withdrawn
amount; returns the reverted amount. -/
def resolve_refund (s : Market) (predecessor caller : String) (amount : Nat)
    (pr : PromiseOutcome) : Option (Market × Nat) :=
  if predecessor = s.own_id then
    let revert_amount :=
      match pr with
      | PromiseOutcome.ok => ZERO_TOKEN
      | PromiseOutcome.failed => amount
    if revert_amount > ZERO_TOKEN then
      let cur_bal := (alistGet s.ft_deposits caller).getD ZERO_TOKEN
      some ({ s with ft_deposits := alistSet s.ft_deposits caller (satAdd cur_bal revert_amount) },
        revert_amount)
    else some (s, revert_amount)
  else none

/-- `resolve_purchase` (src/market-contract/src/sale.rs): `#[private]`
callback after `process_purchase`'s `nft_transfer`.  On success issues an
outbound `ft_transfer` of `price` to the seller and returns it; on failure
re-credits the buyer's escrow balance (saturating add over the buyer's
current balance obtained with `.unwrap()`, hence a panic when the buyer has
no record) and returns 0. -/
def resolve_purchase (s : Market) (predecessor seller_id buyer_id : String)
    (price : Nat) (pr : PromiseOutcome) : Option (Market × Nat) :=
  if predecessor = s.own_id then
    let transfer_amount :=
      match pr with
      | PromiseOutcome.ok => price
      | PromiseOutcome.failed => 0
    if transfer_amount > 0 then
      some ({ s with
          ft_calls := FtTransferCall.mk seller_id transfer_amount
            (some "Sale from marketplace") :: s.ft_calls },
        transfer_amount)
    else
      match alistGet s.ft_deposits buyer_id with
      | none => none
      | some cur_bal =>
        some ({ s with ft_deposits := alistSet s.ft_deposits buyer_id (satAdd cur_bal price) },
          0)
  else none

/-- Modelled from the spec: `internal_remove_sale`, defined in the market
contract's internal.rs which is not among the provided sources — "removed
when purchased or explicitly delisted"; it removes the Sale Record for the
composite key and returns it, panicking when no sale exists. -/
def internal_remove_sale (s : Market) (nft_contract_id token_id : String) :
    Option (Sale × Market) :=
  let key := nft_contract_id ++ DELIMETER ++ token_id
  match alistGet s.sales key with
  | none => none
  | some sale => some (sale, { s with sales := alistRemove s.sales key })

/-- `process_purchase` (src/market-contract/src/sale.rs): removes the sale,
then issues the outbound `nft_transfer` to the buyer (the chained
`resolve_purchase` callback is a separate later transition). -/
def process_purchase (s : Market) (nft_contract_id token_id : String)
    (_amount : Nat) (buyer_id : String) : Option Market :=
  match s.internal_remove_sale nft_contract_id token_id with
  | none => none
  | some (sale, s1) =>
    some { s1 with
      nft_calls := NftTransferCall.mk buyer_id token_id
        sale.approval_id :: s1.nft_calls }

/-- `offer` (src/market-contract/src/sale.rs): requires one yoctoNEAR, an
existing sale the buyer does not own, `amount ≥ sale.sale_conditions`, and
an escrow balance (`.unwrap()`: panic when the buyer has no record)
covering `amount`; debits the buyer's escrow balance with a saturating
subtract and runs `process_purchase`. -/
def offer (s : Market) (buyer_id : String) (deposit : Nat)
    (nft_contract_id token_id : String) (amount : Nat) : Option Market :=
  if deposit = 1 then
    let key := nft_contract_id ++ DELIMETER ++ token_id
    match alistGet s.sales key with
    | none => none
    | some sale =>
      if sale.owner_id = buyer_id then none
      else
        let price := sale.sale_conditions
        if price ≤ amount then
          match alistGet s.ft_deposits buyer_id with
          | none => none
          | some cur_bal =>
            if amount ≤ cur_bal then
              let s1 := { s with
                ft_deposits := alistSet s.ft_deposits buyer_id (satSub cur_bal amount) }
              s1.process_purchase nft_contract_id token_id amount buyer_id
            else none
        else none
  else none

end Market

/-! ## Concrete states

Fixtures used to evaluate the embedded operations at specific inputs. -/

/-- Ledger with a holding 100 and r registered at zero. -/
def stAB : FTContract := FTContract.mk [("a", 100), ("r", 0)] 100 []

/-- Ledger state right after the commit phase of `ft_transfer_call(a→r, 100)`. -/
def stSaga : FTContract := FTContract.mk [("a", 0), ("r", 100)] 100 []

/-- `stSaga` after a full 100-token refund from r back to a. -/
def stSagaRefunded : FTContract :=
  FTContract.mk [("a", 100), ("r", 0)] 100 [FtEvent.ftTransfer "r" "a" 100 (some "refund")]

/-- Saga state in which the receiver overspent: only 10 of the 100 remain. -/
def stOverspent : FTContract := FTContract.mk [("a", 0), ("r", 10)] 10 []

/-- Saga state in which the sender unregistered mid-flight: only r remains. -/
def stNoSender : FTContract := FTContract.mk [("r", 50)] 50 []

/-- Ledger with two registered holders. -/
def stTwo : FTContract := FTContract.mk [("a", 5), ("b", 7)] 12 []

/-- Marketplace with one funded buyer and one listed sale priced at 20. -/
def mkOne : Market :=
  Market.mk "ft" "mkt" [("buyer", 50)] [("nft.tok1", Sale.mk "seller" 3 "nft" "tok1" 20)] [] []

/-- Marketplace whose escrow map is empty. -/
def mkEmpty : Market := Market.mk "ft" "mkt" [] [] [] []

/-- `mkOne` after a successful `offer` of 30 on its sale: escrow debited to
20, sale removed, `nft_transfer` issued. -/
def mkOneAfterOffer : Market :=
  Market.mk "ft" "mkt" [("buyer", 20)] [] [] [NftTransferCall.mk "buyer" "tok1" 3]

/-! ## Association-list lemmas -/

theorem alistGet_set_self {α : Type} (l : List (String × α)) (k : String) (v : α) :
    alistGet (alistSet l k v) k = some v := by
  induction l with
  | nil => simp [alistSet, alistGet]
  | cons hd t ih =>
    obtain ⟨k', v'⟩ := hd
    by_cases h : k' = k
    · simp [alistSet, alistGet, h]
    · simp [alistSet, alistGet, h, ih]

theorem alistGet_set_other {α : Type} (l : List (String × α)) (k k' : String) (v : α)
    (h : k ≠ k') : alistGet (alistSet l k v) k' = alistGet l k' := by
  induction l with
  | nil => simp [alistSet, alistGet, h]
  | cons hd t ih =>
    obtain ⟨k0, v0⟩ := hd
    by_cases h0 : k0 = k
    · subst h0
      simp [alistSet, alistGet, h, ih]
    · simp only [alistSet, if_neg h0]
      by_cases h1 : k0 = k'
      · simp [alistGet, h1]
      · simp [alistGet, h1, ih]

theorem sumBal_set_present (l : List (String × Nat)) (k : String) (v v0 : Nat)
    (h : alistGet l k = some v0) : sumBal (alistSet l k v) + v0 = sumBal l + v := by
  induction l with
  | nil => simp [alistGet] at h
  | cons hd t ih =>
    obtain ⟨k0, w⟩ := hd
    by_cases h0 : k0 = k
    · simp only [alistGet, if_pos h0] at h
      cases h
      simp [alistSet, if_pos h0, sumBal]
      omega
    · simp only [alistGet, if_neg h0] at h
      have := ih h
      simp only [alistSet, if_neg h0, sumBal, List.map_cons, List.sum_cons] at *
      omega

theorem sumBal_set_absent (l : List (String × Nat)) (k : String) (v : Nat)
    (h : alistGet l k = none) : sumBal (alistSet l k v) = sumBal l + v := by
  induction l with
  | nil => simp [alistSet, sumBal]
  | cons hd t ih =>
    obtain ⟨k0, w⟩ := hd
    by_cases h0 : k0 = k
    · simp [alistGet, if_pos h0] at h
    · simp only [alistGet, if_neg h0] at h
      have := ih h
      simp only [alistSet, if_neg h0, sumBal, List.map_cons, List.sum_cons] at *
      omega

theorem sumBal_remove (l : List (String × Nat)) (k : String) (v0 : Nat)
    (h : alistGet l k = some v0) : sumBal (alistRemove l k) + v0 = sumBal l := by
  induction l with
  | nil => simp [alistGet] at h
  | cons hd t ih =>
    obtain ⟨k0, w⟩ := hd
    by_cases h0 : k0 = k
    · simp only [alistGet, if_pos h0] at h
      cases h
      simp [alistRemove, if_pos h0, sumBal]
      omega
    · simp only [alistGet, if_neg h0] at h
      have := ih h
      simp only [alistRemove, if_neg h0, sumBal, List.map_cons, List.sum_cons] at *
      omega

theorem alistGet_remove_self {α : Type} (l : List (String × α)) (k : String)
    (hnd : (l.map Prod.fst).Nodup) : alistGet (alistRemove l k) k = none := by
  induction l with
  | nil => simp [alistRemove, alistGet]
  | cons hd t ih =>
    obtain ⟨k0, v0⟩ := hd
    simp only [List.map_cons, List.nodup_cons] at hnd
    by_cases h0 : k0 = k
    · subst h0
      simp only [alistRemove, if_pos rfl]
      -- k does not occur among the tail's keys, so lookup misses
      clear ih
      induction t with
      | nil => simp [alistGet]
      | cons hd2 t2 ih2 =>
        obtain ⟨k2, v2⟩ := hd2
        simp only [List.map_cons, List.mem_cons, List.nodup_cons] at hnd
        have hk2 : k2 ≠ k0 := fun h => hnd.1 (Or.inl h.symm)
        simp only [alistGet, if_neg hk2]
        exact ih2 ⟨fun hm => hnd.1 (Or.inr hm), hnd.2.2⟩
    · simp [alistRemove, if_neg h0, alistGet, h0, ih hnd.2]

theorem alistGet_remove_other {α : Type} (l : List (String × α)) (k k' : String)
    (h : k ≠ k') : alistGet (alistRemove l k) k' = alistGet l k' := by
  induction l with
  | nil => simp [alistRemove]
  | cons hd t ih =>
    obtain ⟨k0, v0⟩ := hd
    by_cases h0 : k0 = k
    · subst h0
      simp [alistRemove, alistGet, h]
    · simp only [alistRemove, if_neg h0]
      by_cases h1 : k0 = k'
      · simp [alistGet, h1]
      · simp [alistGet, h1, ih]

/-! ## Characterization lemmas for the ft contract's primitives -/

namespace FTContract

theorem internal_withdraw_some {s s' : FTContract} {a : String} {n : Nat}
    (h : s.internal_withdraw a n = some s') :
    ∃ b, alistGet s.accounts a = some b ∧ n ≤ b ∧ n ≤ s.total_supply ∧
      s' = { s with
        accounts := alistSet s.accounts a (b - n),
        total_supply := s.total_supply - n } := by
  unfold internal_withdraw internal_unwrap_balance_of at h
  cases hg : alistGet s.accounts a with
  | none => rw [hg] at h; exact absurd h (by simp)
  | some b =>
    rw [hg] at h
    dsimp only at h
    split_ifs at h with h1 h2
    exact ⟨b, rfl, h1, h2, (Option.some.inj h).symm⟩

theorem internal_deposit_some {s s' : FTContract} {a : String} {n : Nat}
    (h : s.internal_deposit a n = some s') :
    ∃ b, alistGet s.accounts a = some b ∧ b + n ≤ U128MAX ∧
      s.total_supply + n ≤ U128MAX ∧
      s' = { s with
        accounts := alistSet s.accounts a (b + n),
        total_supply := s.total_supply + n } := by
  unfold internal_deposit internal_unwrap_balance_of at h
  cases hg : alistGet s.accounts a with
  | none => rw [hg] at h; exact absurd h (by simp)
  | some b =>
    rw [hg] at h
    dsimp only at h
    split_ifs at h with h1 h2
    exact ⟨b, rfl, h1, h2, (Option.some.inj h).symm⟩

theorem internal_transfer_some {s s' : FTContract} {snd rcv : String} {n : Nat}
    {memo : Option String} (h : s.internal_transfer snd rcv n memo = some s') :
    snd ≠ rcv ∧ 0 < n ∧
    ∃ s1, s.internal_withdraw snd n = some s1 ∧
      ∃ s2, s1.internal_deposit rcv n = some s2 ∧
        s' = { s2 with log := FtEvent.ftTransfer snd rcv n memo :: s2.log } := by
  unfold internal_transfer at h
  split_ifs at h with h1 h2
  cases hw : s.internal_withdraw snd n with
  | none => rw [hw] at h; exact absurd h (by simp)
  | some s1 =>
    rw [hw] at h
    dsimp only at h
    cases hd : s1.internal_deposit rcv n with
    | none => rw [hd] at h; exact absurd h (by simp)
    | some s2 =>
      rw [hd] at h
      dsimp only at h
      exact ⟨h1, Nat.pos_of_ne_zero h2, s1, rfl, s2, hd, (Option.some.inj h).symm⟩

theorem resolveUnusedAmount_le (amount : Nat) (pr : PromiseRes) :
    resolveUnusedAmount amount pr ≤ amount := by
  cases pr with
  | notReady => exact le_refl _
  | failed => exact le_refl _
  | successful p =>
    cases p with
    | none => exact le_refl _
    | some u => exact Nat.min_le_left _ _

theorem ft_resolve_transfer_unfold (s : FTContract) (snd rcv : String)
    (amount : Nat) (pr : PromiseRes) (hpr : pr ≠ PromiseRes.notReady) :
    s.ft_resolve_transfer snd rcv amount pr =
      (if resolveUnusedAmount amount pr > 0 then
        if (alistGet s.accounts rcv).getD 0 > 0 then
          (if min ((alistGet s.accounts rcv).getD 0) (resolveUnusedAmount amount pr) ≤
              (alistGet s.accounts rcv).getD 0 then
            match alistGet (alistSet s.accounts rcv ((alistGet s.accounts rcv).getD 0 -
                min ((alistGet s.accounts rcv).getD 0) (resolveUnusedAmount amount pr))) snd with
            | none => none
            | some sender_balance =>
              if sender_balance + min ((alistGet s.accounts rcv).getD 0)
                  (resolveUnusedAmount amount pr) ≤ U128MAX then
                if min ((alistGet s.accounts rcv).getD 0) (resolveUnusedAmount amount pr) ≤
                    amount then
                  some
                    ({ s with
                        accounts := alistSet (alistSet s.accounts rcv
                            ((alistGet s.accounts rcv).getD 0 -
                              min ((alistGet s.accounts rcv).getD 0)
                                (resolveUnusedAmount amount pr)))
                          snd (sender_balance + min ((alistGet s.accounts rcv).getD 0)
                            (resolveUnusedAmount amount pr)),
                        log := FtEvent.ftTransfer rcv snd
                            (min ((alistGet s.accounts rcv).getD 0)
                              (resolveUnusedAmount amount pr)) (some "refund") :: s.log },
                      amount - min ((alistGet s.accounts rcv).getD 0)
                        (resolveUnusedAmount amount pr))
                else none
              else none
          else none)
        else some (s, amount)
      else some (s, amount)) := by
  cases pr with
  | notReady => exact absurd rfl hpr
  | failed => rfl
  | successful p => rfl

theorem ft_resolve_transfer_some {s s' : FTContract} {snd rcv : String}
    {amount used : Nat} {pr : PromiseRes}
    (h : s.ft_resolve_transfer snd rcv amount pr = some (s', used)) :
    used = amount - min (resolveUnusedAmount amount pr) ((alistGet s.accounts rcv).getD 0) ∧
    ((min (resolveUnusedAmount amount pr) ((alistGet s.accounts rcv).getD 0) = 0 ∧ s' = s) ∨
      ∃ rb sb,
        alistGet s.accounts rcv = some rb ∧
        0 < min (resolveUnusedAmount amount pr) rb ∧
        alistGet (alistSet s.accounts rcv (rb - min rb (resolveUnusedAmount amount pr))) snd
          = some sb ∧
        sb + min rb (resolveUnusedAmount amount pr) ≤ U128MAX ∧
        s'.accounts =
          alistSet (alistSet s.accounts rcv (rb - min rb (resolveUnusedAmount amount pr)))
            snd (sb + min rb (resolveUnusedAmount amount pr)) ∧
        s'.total_supply = s.total_supply ∧
        s'.log = FtEvent.ftTransfer rcv snd (min rb (resolveUnusedAmount amount pr))
          (some "refund") :: s.log) := by
  have hpr : pr ≠ PromiseRes.notReady := by
    intro hp
    subst hp
    simp [ft_resolve_transfer] at h
  rw [ft_resolve_transfer_unfold s snd rcv amount pr hpr] at h
  set unused := resolveUnusedAmount amount pr with hunused
  set rb := (alistGet s.accounts rcv).getD 0 with hrb
  by_cases h1 : unused > 0
  · rw [if_pos h1] at h
    by_cases h2 : rb > 0
    · rw [if_pos h2, if_pos (Nat.min_le_left rb unused)] at h
      have hgr : alistGet s.accounts rcv = some rb := by
        rcases hg : alistGet s.accounts rcv with _ | v
        · rw [hrb, hg] at h2; simp at h2
        · rw [hrb, hg]; rfl
      cases hs : alistGet (alistSet s.accounts rcv (rb - min rb unused)) snd with
      | none => rw [hs] at h; exact absurd h (by simp)
      | some sb =>
        rw [hs] at h
        dsimp only at h
        by_cases h4 : sb + min rb unused ≤ U128MAX
        · rw [if_pos h4] at h
          have h5 : min rb unused ≤ amount := by
            have := resolveUnusedAmount_le amount pr
            omega
          rw [if_pos h5] at h
          simp only [Option.some.injEq, Prod.mk.injEq] at h
          obtain ⟨hs', hused⟩ := h
          constructor
          · rw [← hused, Nat.min_comm]
          · refine Or.inr ⟨rb, sb, hgr, by omega, hs, h4, ?_, ?_, ?_⟩ <;> rw [← hs']
        · rw [if_neg h4] at h; exact absurd h (by simp)
    · rw [if_neg h2] at h
      simp only [Option.some.injEq, Prod.mk.injEq] at h
      obtain ⟨hs', hused⟩ := h
      have hrb0 : rb = 0 := by omega
      refine ⟨by rw [← hused, hrb0]; simp, Or.inl ⟨by rw [hrb0]; simp, hs'.symm⟩⟩
  · rw [if_neg h1] at h
    simp only [Option.some.injEq, Prod.mk.injEq] at h
    obtain ⟨hs', hused⟩ := h
    have hu0 : unused = 0 := by omega
    refine ⟨by rw [← hused, hu0]; simp, Or.inl ⟨by rw [hu0]; simp, hs'.symm⟩⟩

end FTContract

/-! ## Supply-invariant preservation lemmas -/

namespace FTContract

theorem internal_deposit_supplyInv {s s' : FTContract} {a : String} {n : Nat}
    (hinv : s.supplyInv) (h : s.internal_deposit a n = some s') : s'.supplyInv := by
  obtain ⟨b, hg, _, _, hs'⟩ := internal_deposit_some h
  subst hs'
  have hsum := sumBal_set_present s.accounts a (b + n) b hg
  unfold supplyInv at *
  simp only []
  omega

theorem internal_withdraw_supplyInv {s s' : FTContract} {a : String} {n : Nat}
    (hinv : s.supplyInv) (h : s.internal_withdraw a n = some s') : s'.supplyInv := by
  obtain ⟨b, hg, hnb, hnt, hs'⟩ := internal_withdraw_some h
  subst hs'
  have hsum := sumBal_set_present s.accounts a (b - n) b hg
  unfold supplyInv at *
  simp only []
  omega

theorem internal_transfer_supplyInv {s s' : FTContract} {A B : String} {n : Nat}
    {memo : Option String} (hinv : s.supplyInv)
    (h : s.internal_transfer A B n memo = some s') : s'.supplyInv := by
  obtain ⟨_, _, s1, hw, s2, hd, hs'⟩ := internal_transfer_some h
  subst hs'
  have h1 := internal_withdraw_supplyInv hinv hw
  have h2 := internal_deposit_supplyInv h1 hd
  exact h2

theorem internal_register_account_supplyInv {s s' : FTContract} {a : String}
    (hinv : s.supplyInv) (h : s.internal_register_account a = some s') : s'.supplyInv := by
  unfold internal_register_account at h
  cases hg : alistGet s.accounts a with
  | some b => rw [hg] at h; exact absurd h (by simp)
  | none =>
    rw [hg] at h
    dsimp only at h
    have hs' := (Option.some.inj h).symm
    subst hs'
    have hsum := sumBal_set_absent s.accounts a 0 hg
    unfold supplyInv at *
    simp only []
    omega

theorem ft_resolve_transfer_supplyInv {s s' : FTContract} {snd rcv : String}
    {amount used : Nat} {pr : PromiseRes} (hinv : s.supplyInv)
    (h : s.ft_resolve_transfer snd rcv amount pr = some (s', used)) : s'.supplyInv := by
  obtain ⟨-, hcases⟩ := ft_resolve_transfer_some h
  rcases hcases with ⟨-, rfl⟩ | ⟨rb, sb, hgr, hpos, hgs, -, hacc, hts, -⟩
  · exact hinv
  · have h1 := sumBal_set_present s.accounts rcv (rb - min rb (resolveUnusedAmount amount pr))
      rb hgr
    have h2 := sumBal_set_present
      (alistSet s.accounts rcv (rb - min rb (resolveUnusedAmount amount pr))) snd
      (sb + min rb (resolveUnusedAmount amount pr)) sb hgs
    unfold supplyInv at *
    rw [hacc, hts]
    have hle : min rb (resolveUnusedAmount amount pr) ≤ rb := Nat.min_le_left _ _
    omega

end FTContract

/-! ## Claim theorems -/

open FTContract Market

/-- C6: `internal_transfer(A, B, n, memo)` fails when `A = B` (self
transfer) or `n = 0` (zero amount); when it succeeds, A's balance decreases
by n, B's balance increases by n, the sum of their balances and the total
supply are unchanged, and a transfer event carrying sender, receiver,
amount and the optional memo is emitted. -/
theorem C6_internal_transfer_conservation (s : FTContract) (A B : String)
    (n : Nat) (memo : Option String) :
    (A = B → s.internal_transfer A B n memo = none) ∧
    (n = 0 → s.internal_transfer A B n memo = none) ∧
    (∀ s', s.internal_transfer A B n memo = some s' →
      ∃ a b, alistGet s.accounts A = some a ∧ alistGet s.accounts B = some b ∧
        n ≤ a ∧
        alistGet s'.accounts A = some (a - n) ∧
        alistGet s'.accounts B = some (b + n) ∧
        (a - n) + (b + n) = a + b ∧
        s'.total_supply = s.total_supply ∧
        s'.log = FtEvent.ftTransfer A B n memo :: s.log) := by
  refine ⟨?_, ?_, ?_⟩
  · intro hAB
    unfold internal_transfer
    rw [if_pos hAB]
  · intro hn
    subst hn
    unfold internal_transfer
    split_ifs with h1 h2
    · rfl
    · rfl
    · exact absurd rfl h2
  · intro s' h
    obtain ⟨hAB, hn, s1, hw, s2, hd, hs'⟩ := internal_transfer_some h
    obtain ⟨a, hga, hna, hts, hs1⟩ := internal_withdraw_some hw
    subst hs1
    obtain ⟨b, hgb, hov, hsup, hs2⟩ := internal_deposit_some hd
    subst hs2
    subst hs'
    rw [alistGet_set_other _ _ _ _ hAB] at hgb
    refine ⟨a, b, hga, hgb, hna, ?_, ?_, by omega, by simp; omega, by simp⟩
    · simp only []
      rw [alistGet_set_other _ _ _ _ (Ne.symm hAB), alistGet_set_self]
    · simp only []
      rw [alistGet_set_self]

/-- Witness for C6: in `stAB`, `internal_transfer("a","r",30)` succeeds and
yields balances 70 and 30 (the spec's register/deposit/transfer scenario). -/
theorem C6_witness :
    ∃ a b, alistGet stAB.accounts "a" = some a ∧ alistGet stAB.accounts "r" = some b ∧
      30 ≤ a ∧
      alistGet (FTContract.mk [("a", 70), ("r", 30)] 100
        [FtEvent.ftTransfer "a" "r" 30 none]).accounts "a" = some (a - 30) ∧
      alistGet (FTContract.mk [("a", 70), ("r", 30)] 100
        [FtEvent.ftTransfer "a" "r" 30 none]).accounts "r" = some (b + 30) ∧
      (a - 30) + (b + 30) = a + b ∧
      (FTContract.mk [("a", 70), ("r", 30)] 100
        [FtEvent.ftTransfer "a" "r" 30 none]).total_supply = stAB.total_supply ∧
      (FTContract.mk [("a", 70), ("r", 30)] 100
        [FtEvent.ftTransfer "a" "r" 30 none]).log =
        FtEvent.ftTransfer "a" "r" 30 none :: stAB.log :=
  (C6_internal_transfer_conservation stAB "a" "r" 30 none).2.2
    (FTContract.mk [("a", 70), ("r", 30)] 100 [FtEvent.ftTransfer "a" "r" 30 none])
    (by decide)

/-- C3: the ledger invariant `total_supply = sum of all balances` is
preserved by every completed primitive: `internal_deposit`,
`internal_withdraw`, `internal_transfer`, `internal_register_account` and
`ft_resolve_transfer` each map a state satisfying the invariant to a state
satisfying it.  In this implementation the commit phase of a saga is a full
`internal_transfer`, so the invariant in fact also holds during the window
between commit and resolve, and resolution preserves it again. -/
theorem C3_total_supply_equals_sum_of_balances (s : FTContract)
    (hinv : s.supplyInv) :
    (∀ a n s', s.internal_deposit a n = some s' → s'.supplyInv) ∧
    (∀ a n s', s.internal_withdraw a n = some s' → s'.supplyInv) ∧
    (∀ A B n memo s', s.internal_transfer A B n memo = some s' → s'.supplyInv) ∧
    (∀ a s', s.internal_register_account a = some s' → s'.supplyInv) ∧
    (∀ snd rcv amount pr s' used,
      s.ft_resolve_transfer snd rcv amount pr = some (s', used) → s'.supplyInv) :=
  ⟨fun _ _ _ h => internal_deposit_supplyInv hinv h,
   fun _ _ _ h => internal_withdraw_supplyInv hinv h,
   fun _ _ _ _ _ h => internal_transfer_supplyInv hinv h,
   fun _ _ h => internal_register_account_supplyInv hinv h,
   fun _ _ _ _ _ _ h => ft_resolve_transfer_supplyInv hinv h⟩

/-- Witness for C3: after resolving the overspent saga `stOverspent` with a
reported unused amount of 40 (refund clamps to 10), the invariant holds in
the resulting state. -/
theorem C3_witness :
    (FTContract.mk [("a", 10), ("r", 0)] 10
      [FtEvent.ftTransfer "r" "a" 10 (some "refund")]).supplyInv :=
  (C3_total_supply_equals_sum_of_balances stOverspent (by decide)).2.2.2.2
    "a" "r" 100 (PromiseRes.successful (some 40))
    (FTContract.mk [("a", 10), ("r", 0)] 10
      [FtEvent.ftTransfer "r" "a" 10 (some "refund")]) 90 (by decide)

/-- C1: when the receiver's `ft_on_transfer` promise resolves successfully
with a parsed unused amount `u`, `ft_resolve_transfer(sender, receiver,
amount)` applies a refund of exactly
`min(min(u, amount), receiver's balance at resolution time)`: the
receiver's balance decreases by the refund, the sender's balance increases
by the refund, and the call returns `amount − refund`.  The sender must
still be registered (`sb` its balance) and the refund credit must not
overflow; see C5 for the unregistered-sender behaviour. -/
theorem C1_ft_resolve_transfer_refund (s : FTContract) (snd rcv : String)
    (amount u sb : Nat) (hne : snd ≠ rcv)
    (hsb : alistGet s.accounts snd = some sb)
    (hov : sb + min (min u amount) ((alistGet s.accounts rcv).getD 0) ≤ U128MAX) :
    ∃ s', s.ft_resolve_transfer snd rcv amount (PromiseRes.successful (some u)) =
        some (s', amount - min (min u amount) ((alistGet s.accounts rcv).getD 0)) ∧
      (alistGet s'.accounts rcv).getD 0 =
        (alistGet s.accounts rcv).getD 0 -
          min (min u amount) ((alistGet s.accounts rcv).getD 0) ∧
      alistGet s'.accounts snd =
        some (sb + min (min u amount) ((alistGet s.accounts rcv).getD 0)) := by
  have hunfold := ft_resolve_transfer_unfold s snd rcv amount
    (PromiseRes.successful (some u)) (by simp)
  simp only [resolveUnusedAmount] at hunfold
  have hmineq : min ((alistGet s.accounts rcv).getD 0) (min amount u)
      = min (min u amount) ((alistGet s.accounts rcv).getD 0) := by omega
  by_cases h1 : min amount u > 0
  · by_cases h2 : (alistGet s.accounts rcv).getD 0 > 0
    · rw [if_pos h1, if_pos h2, if_pos (Nat.min_le_left _ _)] at hunfold
      have hgs : alistGet (alistSet s.accounts rcv ((alistGet s.accounts rcv).getD 0 -
          min ((alistGet s.accounts rcv).getD 0) (min amount u))) snd = some sb := by
        rw [alistGet_set_other _ _ _ _ (Ne.symm hne)]
        exact hsb
      rw [hgs] at hunfold
      dsimp only at hunfold
      rw [if_pos (show sb + min ((alistGet s.accounts rcv).getD 0) (min amount u) ≤ U128MAX
            by omega),
          if_pos (show min ((alistGet s.accounts rcv).getD 0) (min amount u) ≤ amount
            by omega),
          hmineq] at hunfold
      refine ⟨_, hunfold, ?_, ?_⟩
      · simp only []
        rw [alistGet_set_other _ _ _ _ hne, alistGet_set_self]
        rfl
      · simp only []
        rw [alistGet_set_self]
    · rw [if_pos h1, if_neg h2] at hunfold
      have h0 : min (min u amount) ((alistGet s.accounts rcv).getD 0) = 0 := by omega
      refine ⟨s, ?_, by omega, ?_⟩
      · rw [hunfold, h0, Nat.sub_zero]
      · rw [h0, Nat.add_zero]
        exact hsb
  · rw [if_neg h1] at hunfold
    have h0 : min (min u amount) ((alistGet s.accounts rcv).getD 0) = 0 := by omega
    refine ⟨s, ?_, by omega, ?_⟩
    · rw [hunfold, h0, Nat.sub_zero]
    · rw [h0, Nat.add_zero]
      exact hsb

/-- Witness for C1, the spec's overspending scenario: in `stOverspent` the
receiver holds only 10 although it reported 40 unused of the 100 sent, so
the refund clamps to 10 and the used amount is 90. -/
theorem C1_witness :
    ∃ s', stOverspent.ft_resolve_transfer "a" "r" 100
        (PromiseRes.successful (some 40)) =
        some (s', 100 - min (min 40 100) ((alistGet stOverspent.accounts "r").getD 0)) ∧
      (alistGet s'.accounts "r").getD 0 =
        (alistGet stOverspent.accounts "r").getD 0 -
          min (min 40 100) ((alistGet stOverspent.accounts "r").getD 0) ∧
      alistGet s'.accounts "a" =
        some (0 + min (min 40 100) ((alistGet stOverspent.accounts "r").getD 0)) :=
  C1_ft_resolve_transfer_refund stOverspent "a" "r" 100 40 0 (by decide)
    (by decide) (by decide)

/-- C2: in `ft_resolve_transfer`, a failed promise or an unparsable success
value makes the unused amount the entire original `amount` (full refund,
subject only to the receiver-balance clamp); a value parsing as `u` makes
it `min u amount`.  The unused amount never exceeds `amount`, the returned
used amount is `amount − min(unused, receiver balance)`, and the receiver's
balance is debited by at most `amount`: a receiver can never cause a refund
larger than what it was sent. -/
theorem C2_conservative_unused_amount (s : FTContract) (snd rcv : String)
    (amount : Nat) (pr : PromiseRes) (s' : FTContract) (used : Nat)
    (h : s.ft_resolve_transfer snd rcv amount pr = some (s', used)) :
    (pr = PromiseRes.failed → resolveUnusedAmount amount pr = amount) ∧
    (pr = PromiseRes.successful none → resolveUnusedAmount amount pr = amount) ∧
    (∀ u, pr = PromiseRes.successful (some u) →
      resolveUnusedAmount amount pr = min u amount) ∧
    resolveUnusedAmount amount pr ≤ amount ∧
    used = amount - min (resolveUnusedAmount amount pr) ((alistGet s.accounts rcv).getD 0) ∧
    (alistGet s.accounts rcv).getD 0 - (alistGet s'.accounts rcv).getD 0 ≤ amount := by
  obtain ⟨hused, hcases⟩ := ft_resolve_transfer_some h
  refine ⟨?_, ?_, ?_, resolveUnusedAmount_le amount pr, hused, ?_⟩
  · rintro rfl; rfl
  · rintro rfl; rfl
  · rintro u rfl
    simp [resolveUnusedAmount, Nat.min_comm]
  · have hle := resolveUnusedAmount_le amount pr
    rcases hcases with ⟨-, rfl⟩ | ⟨rb, sb, hgr, hpos, hgs, -, hacc, -, -⟩
    · omega
    · by_cases hsr : snd = rcv
      · subst hsr
        rw [alistGet_set_self] at hgs
        have hsb : sb = rb - min rb (resolveUnusedAmount amount pr) := Option.some.inj hgs.symm
        rw [hacc, alistGet_set_self, hgr]
        simp only [Option.getD]
        omega
      · rw [hacc, alistGet_set_other _ _ _ _ hsr, alistGet_set_self, hgr]
        simp only [Option.getD]
        omega

/-- Witness for C2, the spec's failed-notify scenario: resolving `stSaga`
with a failed promise refunds the full 100 and returns a used amount of 0. -/
theorem C2_witness :
    (PromiseRes.failed = PromiseRes.failed →
      resolveUnusedAmount 100 PromiseRes.failed = 100) ∧
    (PromiseRes.failed = PromiseRes.successful none →
      resolveUnusedAmount 100 PromiseRes.failed = 100) ∧
    (∀ u, PromiseRes.failed = PromiseRes.successful (some u) →
      resolveUnusedAmount 100 PromiseRes.failed = min u 100) ∧
    resolveUnusedAmount 100 PromiseRes.failed ≤ 100 ∧
    0 = 100 - min (resolveUnusedAmount 100 PromiseRes.failed)
      ((alistGet stSaga.accounts "r").getD 0) ∧
    (alistGet stSaga.accounts "r").getD 0 -
      (alistGet stSagaRefunded.accounts "r").getD 0 ≤ 100 :=
  C2_conservative_unused_amount stSaga "a" "r" 100 PromiseRes.failed
    stSagaRefunded 0 (by decide)

/-- C5 counterexample: in `stNoSender` the sender "a" is unregistered, the
receiver holds 50, and a positive refund of 40 is due — yet the resolution
does not complete with a supply-decreasing burn as the claim states: it
aborts (`none`, the panic at `self.accounts.get(sender_id).unwrap()`), the
code containing no burn branch at all. -/
theorem C5_counterexample :
    alistGet stNoSender.accounts "a" = none ∧
    0 < min (min 40 100) ((alistGet stNoSender.accounts "r").getD 0) ∧
    stNoSender.ft_resolve_transfer "a" "r" 100 (PromiseRes.successful (some 40))
      = none := by
  decide

/-- C5 amended: whenever a positive refund is due (positive clamped unused
amount and positive receiver balance) but the original sender's account no
longer exists, `ft_resolve_transfer` aborts the resolution transition
(panics) instead of burning the refund; total supply is untouched because
no state transition completes. -/
theorem C5_missing_sender_aborts (s : FTContract) (snd rcv : String)
    (amount u : Nat) (hne : snd ≠ rcv)
    (hsnd : alistGet s.accounts snd = none)
    (hpos : 0 < min (min u amount) ((alistGet s.accounts rcv).getD 0)) :
    s.ft_resolve_transfer snd rcv amount (PromiseRes.successful (some u)) = none := by
  rw [ft_resolve_transfer_unfold s snd rcv amount (PromiseRes.successful (some u)) (by simp)]
  simp only [resolveUnusedAmount]
  rw [if_pos (show min amount u > 0 by omega),
    if_pos (show (alistGet s.accounts rcv).getD 0 > 0 by omega),
    if_pos (Nat.min_le_left _ _)]
  have hgs : alistGet (alistSet s.accounts rcv ((alistGet s.accounts rcv).getD 0 -
      min ((alistGet s.accounts rcv).getD 0) (min amount u))) snd = none := by
    rw [alistGet_set_other _ _ _ _ (Ne.symm hne)]
    exact hsnd
  rw [hgs]

/-- Witness for the amended C5 at the concrete mid-flight-unregistered
state. -/
theorem C5_witness :
    stNoSender.ft_resolve_transfer "a" "r" 100 (PromiseRes.successful (some 40))
      = none :=
  C5_missing_sender_aborts stNoSender "a" "r" 100 40 (by decide) (by decide)
    (by decide)

/-- C4: the market contract's two resolution entry points are `#[private]`
and reject any predecessor other than the contract's own account ("mkt"),
but the token contract's `ft_resolve_transfer` is a plain public method with
no predecessor check — despite the requirement comment above it
(src/ft-contract/src/ft_core.rs line 159, "Contract MUST forbid calls to
this function by any account except self"): for EVERY predecessor,
including "mallory", the call succeeds and moves the full 100 tokens of
`stSaga` from "r" back to "a". -/
theorem C4_resolution_caller_check :
    (∀ predecessor : String,
      ft_resolve_transfer_entry predecessor stSaga "a" "r" 100 PromiseRes.failed
        = some (stSagaRefunded, 0)) ∧
    stSagaRefunded.accounts ≠ stSaga.accounts ∧
    mkOne.resolve_purchase "mallory" "seller" "buyer" 30 PromiseOutcome.ok = none ∧
    mkOne.resolve_refund "mallory" "buyer" 30 PromiseOutcome.failed = none :=
  ⟨fun _ => rfl, by decide, by decide, by decide⟩

/-- C9 counterexample: force-unregistering "a" (balance 5) from `stTwo`
removes the record and decreases total supply from 12 to 7, but the event
log stays empty — no burn/accounting event of any kind is emitted,
contradicting the claim's "emits an accounting (burn) event". -/
theorem C9_counterexample :
    stTwo.storage_unregister "a" 1 (some true)
      = some (true, FTContract.mk [("b", 7)] 7 []) ∧
    (FTContract.mk [("b", 7)] 7 []).log = stTwo.log := by
  decide

/-- C9 amended: `storage_unregister` without force fails for every
registered account with a positive balance; with `force = true` it removes
the account record and decreases total supply by exactly the forfeited
balance, but emits NO event; for an unregistered caller it returns `false`
without aborting. -/
theorem C9_storage_unregister_burns_silently (s : FTContract) (acc : String)
    (b : Nat) :
    (alistGet s.accounts acc = some b → 0 < b →
      s.storage_unregister acc 1 none = none ∧
      s.storage_unregister acc 1 (some false) = none) ∧
    (alistGet s.accounts acc = some b → (s.accounts.map Prod.fst).Nodup →
      b ≤ s.total_supply →
      ∃ s', s.storage_unregister acc 1 (some true) = some (true, s') ∧
        alistGet s'.accounts acc = none ∧
        s'.total_supply = s.total_supply - b ∧
        s.total_supply - s'.total_supply = b ∧
        s'.log = s.log) ∧
    (alistGet s.accounts acc = none →
      s.storage_unregister acc 1 none = some (false, s)) := by
  refine ⟨?_, ?_, ?_⟩
  · intro hg hb
    constructor <;>
    · unfold storage_unregister internal_storage_unregister
      rw [if_pos rfl, hg]
      simp only [Option.getD]
      rw [if_neg (by simp; omega)]
  · intro hg hnd hbs
    refine ⟨FTContract.mk (alistRemove s.accounts acc) (s.total_supply - b) s.log,
      ?_, ?_, rfl, by simp only []; omega, rfl⟩
    · unfold storage_unregister internal_storage_unregister
      rw [if_pos rfl, hg]
      simp only [Option.getD]
      rw [if_pos (Or.inr trivial)]
      rfl
    · simp only []
      exact alistGet_remove_self s.accounts acc hnd
  · intro hg
    unfold storage_unregister internal_storage_unregister
    rw [if_pos rfl, hg]
    rfl

/-- Witness for the amended C9: force-unregistering "a" from `stTwo`. -/
theorem C9_witness :
    ∃ s', stTwo.storage_unregister "a" 1 (some true) = some (true, s') ∧
      alistGet s'.accounts "a" = none ∧
      s'.total_supply = stTwo.total_supply - 5 ∧
      stTwo.total_supply - s'.total_supply = 5 ∧
      s'.log = stTwo.log :=
  (C9_storage_unregister_burns_silently stTwo "a" 5).2.1 (by decide) (by decide)
    (by decide)

/-- C7 counterexample: with no escrow record for the buyer and a zero
price, `resolve_purchase` after a SUCCESSFUL asset transfer does not issue
a token transfer and return the price as the claim states — it aborts
(`none`): the zero price routes it into the refund branch, whose
`.unwrap()` on the missing buyer record panics. -/
theorem C7_counterexample :
    alistGet mkEmpty.ft_deposits "ghost" = none ∧
    mkEmpty.resolve_purchase "mkt" "seller" "ghost" 0 PromiseOutcome.ok = none := by
  decide

/-- C7 amended: provided the buyer has an escrow record (always true in the
saga, since `offer` debits an existing record) and re-crediting it cannot
saturate: on a successful asset transfer with positive price the callback
issues an outbound token transfer of `price` to the seller, returns
`price`, and leaves all escrow balances unchanged; on success with zero
price it returns 0 and issues no transfer; on a failed asset transfer it
credits the buyer's escrow balance back by exactly `price`, returns 0, and
issues no transfer. -/
theorem C7_resolve_purchase_settlement (s : Market) (seller buyer : String)
    (price cur : Nat) (hcur : alistGet s.ft_deposits buyer = some cur)
    (hsat : cur + price ≤ U128MAX) :
    (0 < price →
      ∃ s', s.resolve_purchase s.own_id seller buyer price PromiseOutcome.ok
          = some (s', price) ∧
        s'.ft_deposits = s.ft_deposits ∧
        s'.ft_calls = FtTransferCall.mk seller price (some "Sale from marketplace")
          :: s.ft_calls) ∧
    (price = 0 →
      ∃ s', s.resolve_purchase s.own_id seller buyer price PromiseOutcome.ok
          = some (s', 0) ∧
        alistGet s'.ft_deposits buyer = some cur ∧
        s'.ft_calls = s.ft_calls) ∧
    (∃ s', s.resolve_purchase s.own_id seller buyer price PromiseOutcome.failed
        = some (s', 0) ∧
      alistGet s'.ft_deposits buyer = some (cur + price) ∧
      s'.ft_calls = s.ft_calls) := by
  refine ⟨?_, ?_, ?_⟩
  · intro hpos
    refine ⟨{ s with ft_calls := FtTransferCall.mk seller price (some "Sale from marketplace") :: s.ft_calls }, ?_, rfl, rfl⟩
    unfold resolve_purchase
    rw [if_pos rfl]
    simp only []
    rw [if_pos hpos]
  · intro hp0
    subst hp0
    have hc : satAdd cur 0 = cur := by
      unfold satAdd
      rw [Nat.add_zero]
      exact Nat.min_eq_left (by omega)
    refine ⟨{ s with ft_deposits := alistSet s.ft_deposits buyer (satAdd cur 0) },
      ?_, ?_, rfl⟩
    · unfold resolve_purchase
      rw [if_pos rfl]
      simp only []
      rw [if_neg (by omega), hcur]
    · simp only []
      rw [alistGet_set_self, hc]
  · have hc : satAdd cur price = cur + price := by
      unfold satAdd
      exact Nat.min_eq_left hsat
    refine ⟨{ s with ft_deposits := alistSet s.ft_deposits buyer (satAdd cur price) },
      ?_, ?_, rfl⟩
    · unfold resolve_purchase
      rw [if_pos rfl]
      simp only []
      rw [if_neg (by omega), hcur]
    · simp only []
      rw [alistGet_set_self, hc]

/-- Witness for the amended C7: a failed asset transfer for `mkOne`'s buyer
(escrow 50) at price 30 re-credits the escrow to 80 and returns 0. -/
theorem C7_witness :
    ∃ s', mkOne.resolve_purchase mkOne.own_id "seller" "buyer" 30
        PromiseOutcome.failed = some (s', 0) ∧
      alistGet s'.ft_deposits "buyer" = some (50 + 30) ∧
      s'.ft_calls = mkOne.ft_calls :=
  (C7_resolve_purchase_settlement mkOne "seller" "buyer" 30 50 (by decide)
    (by decide)).2.2

/-- C8: `offer` fails (whole transition rolled back, no state mutated)
whenever the bid is below the sale price, and likewise when the buyer's
escrow balance cannot cover the bid; on success the buyer's escrow balance
is debited by exactly `amount` and the Sale Record is removed, both in the
same transition that issues the remote `nft_transfer` settlement call (the
call leaves the contract only after these state writes are persisted). -/
theorem C8_offer_checks_and_debit (s : Market) (buyer nft token : String)
    (amount : Nat) :
    (∀ sale, alistGet s.sales (nft ++ DELIMETER ++ token) = some sale →
      amount < sale.sale_conditions → s.offer buyer 1 nft token amount = none) ∧
    (∀ cur, alistGet s.ft_deposits buyer = some cur → cur < amount →
      s.offer buyer 1 nft token amount = none) ∧
    (∀ s', s.offer buyer 1 nft token amount = some s' →
      (s.sales.map Prod.fst).Nodup →
      ∃ sale cur, alistGet s.sales (nft ++ DELIMETER ++ token) = some sale ∧
        sale.sale_conditions ≤ amount ∧
        alistGet s.ft_deposits buyer = some cur ∧ amount ≤ cur ∧
        alistGet s'.ft_deposits buyer = some (cur - amount) ∧
        alistGet s'.sales (nft ++ DELIMETER ++ token) = none ∧
        s'.nft_calls = NftTransferCall.mk buyer token sale.approval_id
          :: s.nft_calls) := by
  refine ⟨?_, ?_, ?_⟩
  · intro sale hg hlt
    unfold offer
    rw [if_pos rfl]
    simp only []
    rw [hg]
    dsimp only
    split_ifs with h1 h2
    · rfl
    · exact absurd h2 (by omega)
    · rfl
  · intro cur hcur hlt
    unfold offer
    rw [if_pos rfl]
    simp only []
    cases hg : alistGet s.sales (nft ++ DELIMETER ++ token) with
    | none => rfl
    | some sale =>
      dsimp only
      split_ifs with h1 h2
      · rfl
      · rw [hcur]
        dsimp only
        rw [if_neg (by omega)]
      · rfl
  · intro s' h hnd
    unfold offer at h
    rw [if_pos rfl] at h
    simp only [] at h
    cases hg : alistGet s.sales (nft ++ DELIMETER ++ token) with
    | none => rw [hg] at h; exact absurd h (by simp)
    | some sale =>
      rw [hg] at h
      dsimp only at h
      split_ifs at h with h1 h2
      cases hcur : alistGet s.ft_deposits buyer with
      | none => rw [hcur] at h; exact absurd h (by simp)
      | some cur =>
        rw [hcur] at h
        dsimp only at h
        split_ifs at h with h3
        unfold process_purchase internal_remove_sale at h
        dsimp only at h
        rw [hg] at h
        dsimp only at h
        have hs' := Option.some.inj h
        subst hs'
        refine ⟨sale, cur, rfl, h2, rfl, h3, ?_, ?_, rfl⟩
        · rw [alistGet_set_self]
          rfl
        · exact alistGet_remove_self s.sales _ hnd

/-- Witness for C8: the successful `offer` of 30 against `mkOne`'s sale
priced at 20 with escrow 50. -/
theorem C8_witness :
    ∃ sale cur, alistGet mkOne.sales ("nft" ++ DELIMETER ++ "tok1") = some sale ∧
      sale.sale_conditions ≤ 30 ∧
      alistGet mkOne.ft_deposits "buyer" = some cur ∧ 30 ≤ cur ∧
      alistGet mkOneAfterOffer.ft_deposits "buyer" = some (cur - 30) ∧
      alistGet mkOneAfterOffer.sales ("nft" ++ DELIMETER ++ "tok1") = none ∧
      mkOneAfterOffer.nft_calls = NftTransferCall.mk "buyer" "tok1" sale.approval_id
        :: mkOne.nft_calls :=
  (C8_offer_checks_and_debit mkOne "buyer" "nft" "tok1" 30).2.2 mkOneAfterOffer
    (by decide) (by decide)

/-- C10: every escrow-balance update in the marketplace uses saturating
128-bit arithmetic, not the ledger's checked arithmetic: the credit in
`ft_on_transfer` (for any amount — it cannot abort on overflow, capping at
`u128::MAX`), the re-credit in `resolve_refund` and in `resolve_purchase`'s
refund branch, and the debits in `ft_withdraw` and `offer`. -/
theorem C10_escrow_saturating_arithmetic (s : Market) :
    (∀ signer amount, s.ft_id ≠ signer →
      ∃ s', s.ft_on_transfer s.ft_id signer signer amount = some (s', 0) ∧
        alistGet s'.ft_deposits signer =
          some (min ((alistGet s.ft_deposits signer).getD 0 + amount) U128MAX)) ∧
    (∀ caller amount, 0 < amount →
      ∃ s', s.resolve_refund s.own_id caller amount PromiseOutcome.failed
          = some (s', amount) ∧
        alistGet s'.ft_deposits caller =
          some (min ((alistGet s.ft_deposits caller).getD 0 + amount) U128MAX)) ∧
    (∀ seller buyer price cur, alistGet s.ft_deposits buyer = some cur →
      ∃ s', s.resolve_purchase s.own_id seller buyer price PromiseOutcome.failed
          = some (s', 0) ∧
        alistGet s'.ft_deposits buyer = some (min (cur + price) U128MAX)) ∧
    (∀ caller amount, amount ≤ (alistGet s.ft_deposits caller).getD 0 →
      ∃ s', s.ft_withdraw caller 1 amount = some s' ∧
        alistGet s'.ft_deposits caller =
          some ((alistGet s.ft_deposits caller).getD 0 - amount)) ∧
    (∀ buyer nft token amount s', s.offer buyer 1 nft token amount = some s' →
      ∃ cur, alistGet s.ft_deposits buyer = some cur ∧
        alistGet s'.ft_deposits buyer = some (cur - amount)) := by
  refine ⟨?_, ?_, ?_, ?_, ?_⟩
  · intro signer amount hneq
    refine ⟨{ s with ft_deposits := alistSet s.ft_deposits signer (satAdd ((alistGet s.ft_deposits signer).getD ZERO_TOKEN) amount) }, ?_, ?_⟩
    · unfold ft_on_transfer
      rw [if_pos rfl, if_neg hneq, if_pos rfl]
      rfl
    · rw [alistGet_set_self]
      rfl
  · intro caller amount hpos
    refine ⟨{ s with ft_deposits := alistSet s.ft_deposits caller (satAdd ((alistGet s.ft_deposits caller).getD ZERO_TOKEN) amount) }, ?_, ?_⟩
    · unfold resolve_refund
      rw [if_pos rfl]
      simp only []
      rw [if_pos (show amount > ZERO_TOKEN from hpos)]
    · rw [alistGet_set_self]
      rfl
  · intro seller buyer price cur hcur
    refine ⟨{ s with ft_deposits := alistSet s.ft_deposits buyer (satAdd cur price) }, ?_, ?_⟩
    · unfold resolve_purchase
      rw [if_pos rfl]
      simp only []
      rw [if_neg (by omega), hcur]
    · rw [alistGet_set_self]
      rfl
  · intro caller amount hle
    refine ⟨{ s with
      ft_deposits := alistSet s.ft_deposits caller (satSub ((alistGet s.ft_deposits caller).getD ZERO_TOKEN) amount),
      ft_calls := FtTransferCall.mk caller amount (some "Withdrawing from Marketplace") :: s.ft_calls }, ?_, ?_⟩
    · unfold ft_withdraw
      rw [if_pos rfl]
      simp only []
      rw [if_pos (show amount ≤ (alistGet s.ft_deposits caller).getD ZERO_TOKEN from hle)]
    · rw [alistGet_set_self]
      rfl
  · intro buyer nft token amount s' h
    unfold offer at h
    rw [if_pos rfl] at h
    simp only [] at h
    cases hg : alistGet s.sales (nft ++ DELIMETER ++ token) with
    | none => rw [hg] at h; exact absurd h (by simp)
    | some sale =>
      rw [hg] at h
      dsimp only at h
      split_ifs at h with h1 h2
      cases hcur : alistGet s.ft_deposits buyer with
      | none => rw [hcur] at h; exact absurd h (by simp)
      | some cur =>
        rw [hcur] at h
        dsimp only at h
        split_ifs at h with h3
        unfold process_purchase internal_remove_sale at h
        dsimp only at h
        rw [hg] at h
        dsimp only at h
        have hs' := Option.some.inj h
        subst hs'
        refine ⟨cur, rfl, ?_⟩
        rw [alistGet_set_self]
        rfl

/-- Witness for C10: depositing `u128::MAX` tokens on top of `mkOne`'s
existing escrow balance of 50 silently caps the balance at `u128::MAX`
instead of aborting. -/
theorem C10_witness :
    ∃ s', mkOne.ft_on_transfer mkOne.ft_id "buyer" "buyer" U128MAX = some (s', 0) ∧
      alistGet s'.ft_deposits "buyer" =
        some (min ((alistGet mkOne.ft_deposits "buyer").getD 0 + U128MAX) U128MAX) :=
  (C10_escrow_saturating_arithmetic mkOne).1 "buyer" U128MAX (by decide)

end FtTutorial
